import Mathlib

/-!
Verification development for a two-stage planner/executor agent.

The embedded program lives in src/main.py of the repository: a function-call
text protocol (parse_function_call), a planner-output parser
(process_llm1_response), a registry-based dispatcher (execute_function), the
orchestrator loop (run_agent), and a directory scan that populates the
registry (load_functions_from_directory).

Strings are modelled as Lean `String` / `List Char`; the embedding is an
ASCII model of the Python regular expressions and string predicates involved
(the source never relies on non-ASCII behaviour of `\w`, `\s`, `isdigit`,
`lower`). Python dictionaries are modelled as insertion-ordered association
lists with in-place update on existing keys, matching dict semantics.
-/

namespace AgentSpec

/-! ### Character constants (kept symbolic to avoid escape-heavy literals) -/

def sq : Char := Char.ofNat 39   -- single quote
def dq : Char := Char.ofNat 34   -- double quote
def bslash : Char := Char.ofNat 92
def nlc : Char := Char.ofNat 10  -- newline
def crc : Char := Char.ofNat 13  -- carriage return
def tabc : Char := Char.ofNat 9  -- tab
def btick : Char := Char.ofNat 96 -- backtick

/-- Python `\s` / `str.strip` whitespace, ASCII model (space, tab, CR, LF). -/
def isPySpace (c : Char) : Bool :=
  c = ' ' || c = tabc || c = nlc || c = crc

/-- Python `str.strip()`: drop leading and trailing whitespace. -/
def stripList (cs : List Char) : List Char :=
  ((cs.dropWhile isPySpace).reverse.dropWhile isPySpace).reverse

/-- Python `str.strip()` on `String`. -/
def pyStrip (s : String) : String := String.mk (stripList s.data)

/-- Python `str.lower()`, ASCII model. -/
def pyLower (s : String) : String := String.mk (s.data.map Char.toLower)

/-- Python `str.startswith`, character-list model. -/
def pyStartsWith (s pre : String) : Bool := pre.data.isPrefixOf s.data

/-- Python `str.endswith`, character-list model. -/
def pyEndsWith (s suf : String) : Bool := suf.data.isSuffixOf s.data

/-! ### Python scalar values

The values produced by the call-mode argument coercion in
src/main.py lines 260-289: strings, ints, floats, booleans and None.
Floats are modelled exactly as rationals (the source only ever builds them
from finite decimal literals). -/

inductive PyVal where
  | str (s : String)
  | int (n : Int)
  | float (q : Rat)
  | bool (b : Bool)
  | none
deriving DecidableEq

/-- Argument map of a parsed call: a Python dict, i.e. an insertion-ordered
association list whose insert updates an existing key in place. -/
abbrev ArgsDict := List (String × PyVal)

/-- Python `d[k] = v` on an insertion-ordered dict. -/
def dictInsert {α : Type} (d : List (String × α)) (k : String) (v : α) :
    List (String × α) :=
  match d with
  | [] => [(k, v)]
  | (k1, v1) :: rest =>
    if k1 = k then (k, v) :: rest else (k1, v1) :: dictInsert rest k v

/-- Python `d[k]` / `k in d` lookup. -/
def lookupKey {α : Type} (d : List (String × α)) (k : String) : Option α :=
  match d with
  | [] => Option.none
  | (k1, v1) :: rest => if k1 = k then Option.some v1 else lookupKey rest k

/-! ### parse_function_call (src/main.py lines 206-293) -/

/-- Python regex `\w` character class, ASCII model. -/
def isWordChar (c : Char) : Bool := c.isAlphanum || c = '_'

/-- `re.match(r'(\w+)\s*\(', s)`: a leading run of word characters followed by
optional whitespace and an opening parenthesis (src/main.py line 218). -/
def matchFuncName (cs : List Char) : Option String :=
  let name := cs.takeWhile isWordChar
  if name = [] then Option.none
  else
    match (cs.drop name.length).dropWhile isPySpace with
    | '(' :: _ => Option.some (String.mk name)
    | _ => Option.none

/-- The scan for the start of `re.search(r'\((.*)\)', s, re.DOTALL)`: the
leftmost `(` that has some `)` after it; returns the remainder after it. -/
def findOpen : List Char → Option (List Char)
  | [] => Option.none
  | c :: rest =>
    if c = '(' then (if rest.contains ')' then Option.some rest else Option.none)
    else findOpen rest

/-- The greedy capture of `re.search(r'\((.*)\)', s, re.DOTALL)`: everything
strictly before the last `)` of the remainder. -/
def upToLastClose (cs : List Char) : List Char :=
  ((cs.reverse.dropWhile (fun c => !(c = ')'))).tail).reverse

/-- Argument-span extraction of src/main.py line 225: greedy `.*` with DOTALL
captures from the first `(` to the last `)` of the whole input. -/
def extractArgsSpan (cs : List Char) : Option (List Char) :=
  (findOpen cs).map upToLastClose

/-- The character-by-character quote-state scan of src/main.py lines 237-258:
split the argument span on commas that are outside single/double quotes,
stripping each piece; a trailing non-empty piece is appended. -/
def splitArgsGo : List Char → Bool → Char → List Char → List String
  | [], _, _, cur => if cur = [] then [] else [String.mk (stripList cur)]
  | c :: rest, inStr, q, cur =>
    if c = dq ∨ c = sq then
      if inStr then
        if c = q then splitArgsGo rest false q (cur ++ [c])
        else splitArgsGo rest inStr q (cur ++ [c])
      else splitArgsGo rest true c (cur ++ [c])
    else if c = ',' then
      if inStr then splitArgsGo rest inStr q (cur ++ [c])
      else String.mk (stripList cur) :: splitArgsGo rest inStr q []
    else splitArgsGo rest inStr q (cur ++ [c])

/-- Top-level comma split of the argument span (src/main.py lines 237-258). -/
def splitArgs (cs : List Char) : List String := splitArgsGo cs false ' ' []

/-- `value.replace('.', '', 1)`: remove the first dot, if any. -/
def removeFirstDot : List Char → List Char
  | [] => []
  | c :: rest => if c = '.' then rest else c :: removeFirstDot rest

/-- Python `str.isdigit()`, ASCII model: non-empty and all decimal digits. -/
def pyIsDigit (cs : List Char) : Bool := !cs.isEmpty && cs.all Char.isDigit

/-- Decimal digits to a natural number. -/
def parseDigitsNat (cs : List Char) : Nat :=
  cs.foldl (fun acc c => 10 * acc + (c.toNat - 48)) 0

/-- Python `int(value)` on an all-digit string. -/
def parsePyInt (cs : List Char) : Int := (parseDigitsNat cs : Int)

/-- Python `float(value)` on a digits-and-one-dot string, as an exact
rational. -/
def parsePyFloat (cs : List Char) : Rat :=
  let ip := cs.takeWhile (fun c => !(c = '.'))
  let fp := (cs.dropWhile (fun c => !(c = '.'))).tail
  (parseDigitsNat ip : Rat) + (parseDigitsNat fp : Rat) / ((10 : Rat) ^ fp.length)

/-- The quoted-value test of src/main.py line 270: the value both starts and
ends with a double quote, or both starts and ends with a single quote. -/
def isQuotedVal (cs : List Char) : Bool :=
  decide ((cs.head? = Option.some dq ∧ cs.getLast? = Option.some dq)
    ∨ (cs.head? = Option.some sq ∧ cs.getLast? = Option.some sq))

/-- Value coercion of src/main.py lines 268-286, applied to the stripped
value text: matching surrounding quotes are stripped and the inside kept as a
string; otherwise true/false (case-insensitive) become booleans, none becomes
null, a digits-with-at-most-one-dot value becomes an int or float, and
anything else stays the raw string. In the ASCII model the int/float
conversions cannot fail, so the except branch of the source (which would
leave the raw string) is unreachable. -/
def coerceValue (v : String) : PyVal :=
  if isQuotedVal v.data then
    PyVal.str (String.mk ((v.data.drop 1).dropLast))
  else if pyLower v = "true" then PyVal.bool true
  else if pyLower v = "false" then PyVal.bool false
  else if pyLower v = "none" then PyVal.none
  else if pyIsDigit (removeFirstDot v.data) then
    if v.data.contains '.' then PyVal.float (parsePyFloat v.data)
    else PyVal.int (parsePyInt v.data)
  else PyVal.str v

/-- Processing of one split argument (src/main.py lines 261-287): a piece
without `=` is dropped; otherwise split on the first `=`, strip both sides,
and coerce the value. -/
def processArg (arg : String) : Option (String × PyVal) :=
  if arg.data.contains '=' then
    Option.some
      (String.mk (stripList (arg.data.takeWhile (fun c => !(c = '=')))),
        coerceValue (String.mk (stripList ((arg.data.dropWhile (fun c => !(c = '='))).tail))))
  else Option.none

/-- Fold the processed arguments into the args dict (src/main.py line 287). -/
def buildArgsDict (args : List String) : ArgsDict :=
  args.foldl
    (fun d a =>
      match processArg a with
      | Option.some kv => dictInsert d kv.1 kv.2
      | Option.none => d)
    []

/-- parse_function_call (src/main.py lines 206-293): extract the function
name, extract and strip the argument span, split it on top-level commas, and
coerce each key=value pair. The source-level try/except cannot fire in the
model (every step is total), so the (None, empty) fallback of line 293 is
represented only by the no-name-match branch. -/
def parse_function_call (func_call_str : String) : Option String × ArgsDict :=
  match matchFuncName func_call_str.data with
  | Option.none => (Option.none, [])
  | Option.some fname =>
    match extractArgsSpan func_call_str.data with
    | Option.none => (Option.some fname, [])
    | Option.some span =>
      let argsChars := stripList span
      if argsChars = [] then (Option.some fname, [])
      else (Option.some fname, buildArgsDict (splitArgs argsChars))

/-! ### Registry and dispatcher (src/main.py lines 296-328)

A registered tool is its declared parameter names (in declaration order, as
`inspect.signature` yields them) together with its body; the body takes the
keyword arguments actually passed and either returns a value or raises, the
raised exception being carried as its `str(e)` message. The registry is the
`function_registry` dict: name to tool, insertion ordered. -/

structure Tool where
  params : List String
  impl : ArgsDict → Except String PyVal

abbrev Registry := List (String × Tool)

/-- Argument filtering of src/main.py lines 315-319: keep, in declared
parameter order, exactly the arguments whose key is a declared parameter. -/
def filterArgs (params : List String) (args : ArgsDict) : ArgsDict :=
  params.filterMap (fun p => (lookupKey args p).map (fun v => (p, v)))

/-- execute_function (src/main.py lines 296-328): a name absent from the
registry raises ValueError (modelled as the error value with the message of
line 308, quotes around the name omitted); otherwise the tool is invoked on
the filtered arguments, and an exception it raises is logged and re-raised
(modelled as the propagated error value). -/
def execute_function (reg : Registry) (func_name : String) (args : ArgsDict) :
    Except String PyVal :=
  match lookupKey reg func_name with
  | Option.none => Except.error ("Function " ++ func_name ++ " not found in registry")
  | Option.some t => t.impl (filterArgs t.params args)

/-! ### process_llm1_response (src/main.py lines 168-204)

List-mode parsing of the planner output. The bracketed-span extraction
models `re.search(r"\[(.*?)\]", response, re.DOTALL)` (leftmost start,
non-greedy: up to the first closing bracket). The literal evaluation models
`ast.literal_eval` restricted to list-of-string literals, which is the only
shape the SubtaskPlan type admits; any other literal is a parse failure in
the model. -/

/-- The scan for the start of `re.search(r"\[(.*?)\]", ...)`: the leftmost
`[` that has some `]` after it; returns the remainder after it. -/
def findBracket : List Char → Option (List Char)
  | [] => Option.none
  | c :: rest =>
    if c = '[' then (if rest.contains ']' then Option.some rest else Option.none)
    else findBracket rest

/-- `match.group(0)` of the non-greedy bracket regex: the first `[`, the
characters up to the first `]` after it, and that `]`. -/
def extractBracketSpan (cs : List Char) : Option (List Char) :=
  (findBracket cs).map (fun rest =>
    '[' :: rest.takeWhile (fun c => !(c = ']')) ++ [']'])

/-- Skip Python source whitespace. -/
def skipWs (cs : List Char) : List Char := cs.dropWhile isPySpace

/-- Unescape one backslash escape inside a Python string literal: the
escapes the serializer below can emit plus the unknown-escape fallback
(Python keeps the backslash and the character). Numeric and unicode escapes
are not modelled; they never arise from a serialized list of strings. -/
def unescape (e : Char) : List Char :=
  if e = bslash then [bslash]
  else if e = 'n' then [nlc]
  else if e = 't' then [tabc]
  else if e = 'r' then [crc]
  else if e = sq ∨ e = dq then [e]
  else [bslash, e]

/-- Parse the body of a Python string literal opened with quote `q`: stops at
the closing quote, processes backslash escapes, and fails on an unterminated
literal or a raw line break (both are SyntaxError in Python). -/
def parseStrLit (q : Char) : List Char → Option (List Char × List Char)
  | [] => Option.none
  | c :: rest =>
    if c = q then Option.some ([], rest)
    else if c = bslash then
      match rest with
      | [] => Option.none
      | e :: rest2 =>
        (parseStrLit q rest2).map (fun p => (unescape e ++ p.1, p.2))
    else if c = nlc ∨ c = crc then Option.none
    else (parseStrLit q rest).map (fun p => (c :: p.1, p.2))

/-- Parse the comma-separated string elements after the opening `[`, up to
and including the closing `]` (trailing comma allowed, as in Python). The
fuel only bounds the number of elements; the top-level call supplies more
fuel than the input length, which suffices since every element consumes at
least one character. -/
def parseElems : Nat → List Char → Option (List String × List Char)
  | 0, _ => Option.none
  | Nat.succ fuel, cs =>
    match skipWs cs with
    | [] => Option.none
    | c :: rest =>
      if c = ']' then Option.some ([], rest)
      else if c = sq ∨ c = dq then
        match parseStrLit c rest with
        | Option.none => Option.none
        | Option.some (content, rest2) =>
          match skipWs rest2 with
          | ',' :: rest3 =>
            (parseElems fuel rest3).map (fun p => (String.mk content :: p.1, p.2))
          | ']' :: rest3 => Option.some ([String.mk content], rest3)
          | _ => Option.none
      else Option.none

/-- `ast.literal_eval` on the extracted span, restricted to list-of-string
literals: optional whitespace, `[`, string elements, `]`, end of input.
Anything else (including lists of non-string literals, which the SubtaskPlan
type cannot hold) is a parse failure. -/
def literalEvalStrList (s : String) : Option (List String) :=
  match skipWs s.data with
  | c :: rest =>
    if c = '[' then
      match parseElems (rest.length + 1) rest with
      | Option.some (xs, rest2) =>
        if skipWs rest2 = [] then Option.some xs else Option.none
      | Option.none => Option.none
    else Option.none
  | [] => Option.none

/-- `re.sub(r'^\s*[\d\-\*]+\.\s*', '', line)` of src/main.py line 191:
remove a leading numbering/bullet marker (whitespace, then digits/dashes/
asterisks, then a dot, then whitespace); if the pattern does not match, the
line is unchanged. -/
def stripListMarker (cs : List Char) : List Char :=
  let afterWs := cs.dropWhile isPySpace
  let marker := afterWs.takeWhile (fun c => c.isDigit || c = '-' || c = '*')
  if marker = [] then cs
  else
    match afterWs.drop marker.length with
    | '.' :: rest => rest.dropWhile isPySpace
    | _ => cs

/-- Python `response.split(chr(10))`: always at least one piece. -/
def splitOnNL : List Char → List (List Char)
  | [] => [[]]
  | c :: rest =>
    match splitOnNL rest with
    | [] => [[c]]
    | l :: ls => if c = nlc then [] :: l :: ls else (c :: l) :: ls

/-- The line-based fallback of src/main.py lines 186-199: keep each line
whose cleaned form (marker stripped, then stripped of whitespace) is
non-empty and differs from the original line; if no line qualifies, the
whole stripped response is the single subtask. -/
def llm1_fallback (response : String) : List String :=
  let lines := splitOnNL response.data
  let potential := lines.filterMap (fun line =>
    let clean := stripList (stripListMarker line)
    if !(clean = []) ∧ !(String.mk line = String.mk clean)
    then Option.some (String.mk clean) else Option.none)
  if !(potential = []) then potential
  else [pyStrip response]

/-- process_llm1_response (src/main.py lines 168-204): find the first
non-greedy bracketed span and literal-evaluate it; a literal-eval failure is
the SyntaxError/ValueError caught at line 201, which returns the empty list
(the line-based fallback runs only when no bracketed span is found at all). -/
def process_llm1_response (response : String) : List String :=
  match extractBracketSpan response.data with
  | Option.some span =>
    match literalEvalStrList (String.mk span) with
    | Option.some xs => xs
    | Option.none => []
  | Option.none => llm1_fallback response

/-! ### Stringified form of a list of strings (for the round-trip claim)

Modelled from the spec: the "stringified form" of a list of strings, i.e.
the Python repr-style list literal `[e1, e2, ...]` whose elements are
quoted, escaped string literals. Quote choice follows repr: single quotes
unless the string contains a single quote and no double quote. Backslash,
line breaks, tab and the chosen quote are escaped; other characters are kept
verbatim (repr would \x-escape other non-printables, but the verbatim form
is an equally valid literal and keeps the model elementary). -/

def reprQuote (cs : List Char) : Char :=
  if cs.contains sq && !(cs.contains dq) then dq else sq

def escChar (q c : Char) : List Char :=
  if c = bslash then [bslash, bslash]
  else if c = nlc then [bslash, 'n']
  else if c = crc then [bslash, 'r']
  else if c = tabc then [bslash, 't']
  else if c = q then [bslash, q]
  else [c]

def escStr (q : Char) : List Char → List Char
  | [] => []
  | c :: rest => escChar q c ++ escStr q rest

/-- One serialized string element. -/
def reprStrChars (s : String) : List Char :=
  let q := reprQuote s.data
  q :: escStr q s.data ++ [q]

/-- The serialized elements, comma-space separated. -/
def reprElems : List String → List Char
  | [] => []
  | [x] => reprStrChars x
  | x :: rest => reprStrChars x ++ ',' :: ' ' :: reprElems rest

/-- The stringified form of a list of strings. -/
def pyReprList (xs : List String) : String :=
  String.mk ('[' :: reprElems xs ++ [']'])

/-! ### Orchestrator loop (src/main.py lines 330-468)

run_agent builds prompts, obtains one planner completion and one executor
completion per subtask, and runs the parse/dispatch pipeline. The model
takes the completions as inputs (the planner response as a string, the
executor as a function from subtask text to response text) since the
network calls are external collaborators; everything from line 439 on is
embedded faithfully. -/

structure SubtaskResult where
  id : Nat
  description : String
  function_call : Option String
  success : Bool
  result : Option PyVal
  error : Option String
deriving DecidableEq

structure ExecutionTrace where
  task : String
  subtasks : List SubtaskResult
  success : Bool
  error : Option String
deriving DecidableEq

/-- The code-fence wrapper: three backticks. -/
def fenceChars : List Char := [btick, btick, btick]

/-- Drop the last n characters. -/
def dropLastN (n : Nat) (l : List Char) : List Char := l.take (l.length - n)

/-- Response cleaning of src/main.py lines 439-441: strip, then remove a
surrounding triple-backtick fence if present and strip again. -/
def cleanResponse (r : String) : String :=
  let c := stripList r.data
  if fenceChars.isPrefixOf c && fenceChars.isSuffixOf c then
    String.mk (stripList (dropLastN 3 (c.drop 3)))
  else String.mk c

/-- The body of one loop iteration of src/main.py lines 422-463: clean the
executor response, parse it, raise on a missing function name (line 448),
dispatch, and record the SubtaskResult. The source never assigns the
function_call field, so it stays None. `str(func_result)` is modelled by
keeping the PyVal itself (the stringification is presentation only). -/
def execSubtask (reg : Registry) (i : Nat) (desc llm2_response : String) :
    SubtaskResult :=
  let clean := cleanResponse llm2_response
  match parse_function_call clean with
  | (Option.none, _) =>
    { id := i + 1, description := desc, function_call := Option.none,
      success := false, result := Option.none,
      error := Option.some ("Could not parse function call: " ++ clean) }
  | (Option.some fname, args) =>
    match execute_function reg fname args with
    | Except.ok v =>
      { id := i + 1, description := desc, function_call := Option.none,
        success := true, result := Option.some v, error := Option.none }
    | Except.error e =>
      { id := i + 1, description := desc, function_call := Option.none,
        success := false, result := Option.none, error := Option.some e }

/-- Python falsiness of the results error slot (`if not results[...]`). -/
def pyFalsyStrOpt : Option String → Bool
  | Option.none => true
  | Option.some s => s.isEmpty

/-- The error text recorded in a subtask result (str(e) of the exception). -/
def errText (sr : SubtaskResult) : String :=
  match sr.error with
  | Option.some m => m
  | Option.none => ""

/-- The for-loop of src/main.py lines 422-466, threading the running
success flag and first-error slot exactly as the source mutates them: a
failing subtask clears the flag and fills the error slot only while it is
still falsy. -/
def run_agent_loop (reg : Registry) (llm2 : String → String) :
    List String → Nat → Bool → Option String →
    List SubtaskResult × Bool × Option String
  | [], _, succ, err => ([], succ, err)
  | desc :: rest, i, succ, err =>
    let sr := execSubtask reg i desc (llm2 desc)
    let succ2 := succ && sr.success
    let err2 :=
      if sr.success then err
      else if pyFalsyStrOpt err then
        Option.some ("Error in subtask " ++ toString (i + 1) ++ ": " ++ errText sr)
      else err
    let out := run_agent_loop reg llm2 rest (i + 1) succ2 err2
    (sr :: out.1, out.2.1, out.2.2)

/-- run_agent (src/main.py lines 330-468) with the two model completions
supplied as inputs: decompose the planner response into subtasks, execute
each, and return the trace. -/
def run_agent (reg : Registry) (user_task llm1_response : String)
    (llm2 : String → String) : ExecutionTrace :=
  let subtasks := process_llm1_response llm1_response
  let out := run_agent_loop reg llm2 subtasks 0 true Option.none
  { task := user_task, subtasks := out.1, success := out.2.1, error := out.2.2 }

/-! ### load_functions_from_directory (src/main.py lines 32-64)

The filesystem walk and dynamic import are modelled by giving each file a
name and a load outcome: importing either yields the module member list
(name/function pairs, as inspect.getmembers returns them) or raises. A file
is processed only if its name ends in .py and does not start with a double
underscore; a load failure is logged and the scan continues. -/

inductive ModuleLoad where
  | ok (members : List (String × Tool))
  | loadError (msg : String)

structure PyFile where
  filename : String
  load : ModuleLoad

/-- Register the ai_-prefixed functions of one successfully loaded module
(src/main.py lines 56-58). -/
def registerModule (reg : Registry) (members : List (String × Tool)) : Registry :=
  members.foldl
    (fun r m => if pyStartsWith m.1 "ai_" then dictInsert r m.1 m.2 else r)
    reg

/-- load_functions_from_directory (src/main.py lines 32-64): fold over the
directory files; malformed modules are skipped, the rest contribute their
ai_-prefixed functions to the registry. -/
def load_functions_from_directory (files : List PyFile) (reg : Registry) :
    Registry :=
  files.foldl
    (fun r f =>
      if pyEndsWith f.filename ".py" && !(pyStartsWith f.filename "__") then
        match f.load with
        | ModuleLoad.ok ms => registerModule r ms
        | ModuleLoad.loadError _ => r
      else r)
    reg

/-! ### The matching-parenthesis span (for the argument-span claim)

Modelled from the spec: "everything between the first `(` and the matching
outer `)`" - a depth-tracking scan from the first opening parenthesis to the
parenthesis that balances it. This is the span the spec describes; the
source regex is compared against it. -/

def matchParen : List Char → Nat → Option (List Char)
  | [], _ => Option.none
  | c :: rest, d =>
    if c = ')' then
      if d = 0 then Option.some []
      else (matchParen rest (d - 1)).map (fun l => c :: l)
    else if c = '(' then (matchParen rest (d + 1)).map (fun l => c :: l)
    else (matchParen rest d).map (fun l => c :: l)

def matchingParenSpan (cs : List Char) : Option (List Char) :=
  match cs.dropWhile (fun c => !(c = '(')) with
  | _ :: rest => matchParen rest 0
  | [] => Option.none

/-! ### A small concrete registry, used to instantiate the theorems -/

/-- A demo tool with declared parameters a and b that adds two ints. -/
def demoAdd : Tool :=
  { params := ["a", "b"],
    impl := fun args =>
      match lookupKey args "a", lookupKey args "b" with
      | Option.some (PyVal.int x), Option.some (PyVal.int y) =>
        Except.ok (PyVal.int (x + y))
      | _, _ => Except.error "bad arguments" }

/-- A demo tool that always raises an exception whose message is empty
(in Python: `raise ValueError` with no argument, whose str is the empty
string). -/
def demoFail : Tool :=
  { params := [], impl := fun _ => Except.error "" }

def demoReg : Registry := [("ai_add", demoAdd), ("ai_bad", demoFail)]

/-- A demo directory: two well-formed tool modules around one malformed
module. -/
def demoFiles : List PyFile :=
  [{ filename := "good1.py", load := ModuleLoad.ok [("ai_add", demoAdd)] },
   { filename := "bad.py", load := ModuleLoad.loadError "SyntaxError" },
   { filename := "good2.py", load := ModuleLoad.ok [("ai_bad", demoFail)] }]

/-! ### Helper lemmas -/

theorem string_mk_data (s : String) : String.mk s.data = s := rfl

theorem dictInsert_overwrite {α : Type} (d : List (String × α)) (k : String)
    (v1 v2 : α) : dictInsert (dictInsert d k v1) k v2 = dictInsert d k v2 := by
  induction d with
  | nil => simp [dictInsert]
  | cons hd t ih =>
    obtain ⟨k1, w⟩ := hd
    by_cases hk : k1 = k
    · subst hk; simp [dictInsert]
    · simp [dictInsert, hk, ih]

theorem lookupKey_dictInsert_ne {α : Type} (d : List (String × α))
    (k k2 : String) (v : α) (h : ¬ k = k2) :
    lookupKey (dictInsert d k v) k2 = lookupKey d k2 := by
  induction d with
  | nil => simp [dictInsert, lookupKey, h]
  | cons hd t ih =>
    obtain ⟨k1, w⟩ := hd
    by_cases hk : k1 = k
    · subst hk; simp [dictInsert, lookupKey, h]
    · simp [dictInsert, lookupKey, hk, ih]

theorem filterArgs_dictInsert_not_param (params : List String) (args : ArgsDict)
    (k : String) (v : PyVal) (hk : ¬ k ∈ params) :
    filterArgs params (dictInsert args k v) = filterArgs params args := by
  induction params with
  | nil => rfl
  | cons p t ih =>
    have hpk : ¬ k = p := fun he => hk (he ▸ List.mem_cons_self p t)
    have ht : ¬ k ∈ t := fun hm => hk (List.mem_cons_of_mem p hm)
    unfold filterArgs at *
    simp only [List.filterMap_cons]
    rw [lookupKey_dictInsert_ne args k p v hpk, ih ht]

theorem filterArgs_keys_mem (params : List String) (args : ArgsDict) :
    ∀ p ∈ filterArgs params args, p.1 ∈ params := by
  intro p hp
  unfold filterArgs at hp
  rcases List.mem_filterMap.mp hp with ⟨a, ha, he⟩
  rcases Option.map_eq_some'.mp he with ⟨w, hw, hfw⟩
  rw [← hfw]
  exact ha

theorem splitArgsGo_inString (cs : List Char)
    (h : ∀ c ∈ cs, ¬(c = dq ∨ c = sq)) :
    ∀ (rest : List Char) (q : Char) (cur : List Char),
      splitArgsGo (cs ++ rest) true q cur = splitArgsGo rest true q (cur ++ cs) := by
  induction cs with
  | nil => intro rest q cur; simp
  | cons c t ih =>
    intro rest q cur
    have hc : ¬(c = dq ∨ c = sq) := h c (List.mem_cons_self c t)
    have ht : ∀ x ∈ t, ¬(x = dq ∨ x = sq) := fun x hx => h x (List.mem_cons_of_mem c hx)
    show splitArgsGo (c :: (t ++ rest)) true q cur = _
    rw [splitArgsGo, if_neg hc]
    by_cases hm : c = ','
    · rw [if_pos hm, if_pos rfl, ih ht rest q (cur ++ [c])]
      simp
    · rw [if_neg hm, ih ht rest q (cur ++ [c])]
      simp

theorem takeWhile_append_of_all {α : Type} {p : α → Bool} (l1 l2 : List α)
    (h : ∀ c ∈ l1, p c = true) :
    (l1 ++ l2).takeWhile p = l1 ++ l2.takeWhile p := by
  induction l1 with
  | nil => simp
  | cons c t ih =>
    have hc := h c (List.mem_cons_self c t)
    have ht := fun x hx => h x (List.mem_cons_of_mem c hx)
    simp [List.takeWhile_cons, hc, ih ht]

theorem dropWhile_append_of_all {α : Type} {p : α → Bool} (l1 l2 : List α)
    (h : ∀ c ∈ l1, p c = true) :
    (l1 ++ l2).dropWhile p = l2.dropWhile p := by
  induction l1 with
  | nil => simp
  | cons c t ih =>
    have hc := h c (List.mem_cons_self c t)
    have ht := fun x hx => h x (List.mem_cons_of_mem c hx)
    simp [List.dropWhile_cons, hc, ih ht]

theorem isQuotedVal_wrap (q : Char) (s : String) (hq : q = dq ∨ q = sq) :
    isQuotedVal (q :: s.data ++ [q]) = true := by
  unfold isQuotedVal
  apply decide_eq_true
  have hlast : (q :: s.data ++ [q]).getLast? = Option.some q := by
    show ((q :: s.data) ++ [q]).getLast? = Option.some q
    exact List.getLast?_concat _
  rcases hq with h | h
  · subst h; exact Or.inl ⟨rfl, hlast⟩
  · subst h; exact Or.inr ⟨rfl, hlast⟩

theorem coerceValue_wrap (q : Char) (s : String) (hq : q = dq ∨ q = sq) :
    coerceValue (String.mk (q :: s.data ++ [q])) = PyVal.str s := by
  have h1 := isQuotedVal_wrap q s hq
  have h2 : ((q :: s.data ++ [q]).drop 1).dropLast = s.data := by
    show (s.data ++ [q]).dropLast = s.data
    exact List.dropLast_concat
  simp only [coerceValue, h1, if_true]
  rw [h2, string_mk_data]

/-! ### Claims -/

/-- C10: parsing a call-mode input in which the same keyword key occurs more
than once returns the argument map in which the last occurrence wins - it is
not an error and the first value does not survive; in general re-inserting a
key into a Python-style dict discards the previous value. -/
theorem c10_duplicate_key_last_wins :
    parse_function_call "f(a=1, a=2)" = (Option.some "f", [("a", PyVal.int 2)])
    ∧ ∀ (d : ArgsDict) (k : String) (v1 v2 : PyVal),
        dictInsert (dictInsert d k v1) k v2 = dictInsert d k v2 :=
  ⟨by decide, fun d k v1 v2 => dictInsert_overwrite d k v1 v2⟩

/-- C9: value coercion after whitespace trimming - a quoted value keeps its
inside as a string, bypassing all coercions; unquoted values are coerced
with exactly the precedence true/false, none, digits-with-at-most-one-dot,
and anything else (negative numbers, scientific notation) stays the raw
string; each key=value pair is split at the first equals sign and both
sides are trimmed before coercion. -/
theorem c9_value_coercion_precedence :
    (∀ s : String, coerceValue (String.mk (dq :: s.data ++ [dq])) = PyVal.str s)
    ∧ (∀ s : String, coerceValue (String.mk (sq :: s.data ++ [sq])) = PyVal.str s)
    ∧ (∀ v : String, isQuotedVal v.data = false → pyLower v = "true" →
        coerceValue v = PyVal.bool true)
    ∧ (∀ v : String, isQuotedVal v.data = false → ¬ pyLower v = "true" →
        pyLower v = "false" → coerceValue v = PyVal.bool false)
    ∧ (∀ v : String, isQuotedVal v.data = false → ¬ pyLower v = "true" →
        ¬ pyLower v = "false" → pyLower v = "none" → coerceValue v = PyVal.none)
    ∧ (∀ v : String, isQuotedVal v.data = false → ¬ pyLower v = "true" →
        ¬ pyLower v = "false" → ¬ pyLower v = "none" →
        pyIsDigit (removeFirstDot v.data) = true →
        coerceValue v = if v.data.contains '.' then PyVal.float (parsePyFloat v.data)
          else PyVal.int (parsePyInt v.data))
    ∧ (∀ v : String, isQuotedVal v.data = false → ¬ pyLower v = "true" →
        ¬ pyLower v = "false" → ¬ pyLower v = "none" →
        pyIsDigit (removeFirstDot v.data) = false → coerceValue v = PyVal.str v)
    ∧ (∀ k w : String, (∀ c ∈ k.data, ¬ c = '=') →
        processArg (String.mk (k.data ++ '=' :: w.data)) =
          Option.some (pyStrip k, coerceValue (pyStrip w))) := by
  refine ⟨fun s => coerceValue_wrap dq s (Or.inl rfl),
    fun s => coerceValue_wrap sq s (Or.inr rfl), ?_, ?_, ?_, ?_, ?_, ?_⟩
  · intro v hq ht; simp [coerceValue, hq, ht]
  · intro v hq ht hf; simp [coerceValue, hq, ht, hf]
  · intro v hq ht hf hn; simp [coerceValue, hq, ht, hf, hn]
  · intro v hq ht hf hn hd; simp [coerceValue, hq, ht, hf, hn, hd]
  · intro v hq ht hf hn hd; simp [coerceValue, hq, ht, hf, hn, hd]
  · intro k w hk
    have hcont : (k.data ++ '=' :: w.data).contains '=' = true :=
      List.elem_eq_true_of_mem (List.mem_append_right _ (List.mem_cons_self _ _))
    have hall : ∀ c ∈ k.data, (fun c => !(c = '=')) c = true := by
      intro c hc
      simp [hk c hc]
    have h1 : (k.data ++ '=' :: w.data).takeWhile (fun c => !(c = '=')) = k.data := by
      rw [takeWhile_append_of_all _ _ hall]
      simp [List.takeWhile_cons]
    have h2 : ((k.data ++ '=' :: w.data).dropWhile (fun c => !(c = '='))).tail = w.data := by
      rw [dropWhile_append_of_all _ _ hall]
      simp [List.dropWhile_cons]
    simp [processArg, hcont, h1, h2, pyStrip]

/-- C1: a parsed call with a null function name, and a parsed call whose
name is absent from the registry, each mark the subtask failed with the
corresponding error (never a silent no-op), and a subtask that executed
successfully did so with a function name present in the registry. -/
theorem c1_unknown_function_fails (reg : Registry) (resp : String)
    (name : String) (args : ArgsDict) (i : Nat) (desc : String) :
    (lookupKey reg name = Option.none →
      execute_function reg name args =
        Except.error ("Function " ++ name ++ " not found in registry"))
    ∧ ((parse_function_call (cleanResponse resp)).1 = Option.none →
        (execSubtask reg i desc resp).success = false
        ∧ (execSubtask reg i desc resp).error =
            Option.some ("Could not parse function call: " ++ cleanResponse resp))
    ∧ (∀ (n : String) (args2 : ArgsDict),
        parse_function_call (cleanResponse resp) = (Option.some n, args2) →
        lookupKey reg n = Option.none →
        (execSubtask reg i desc resp).success = false
        ∧ (execSubtask reg i desc resp).error =
            Option.some ("Function " ++ n ++ " not found in registry"))
    ∧ ((execSubtask reg i desc resp).success = true →
        ∃ (n : String) (t : Tool),
          (parse_function_call (cleanResponse resp)).1 = Option.some n
          ∧ lookupKey reg n = Option.some t) := by
  refine ⟨?_, ?_, ?_, ?_⟩
  · intro h; unfold execute_function; rw [h]
  · intro h
    rcases hp : parse_function_call (cleanResponse resp) with ⟨fn, a⟩
    rw [hp] at h
    cases fn with
    | none => simp [execSubtask, hp]
    | some n => simp at h
  · intro n args2 hp hlk
    simp [execSubtask, hp, execute_function, hlk]
  · intro hs
    rcases hp : parse_function_call (cleanResponse resp) with ⟨fn, a⟩
    cases fn with
    | none => simp [execSubtask, hp] at hs
    | some n =>
      rcases hl : lookupKey reg n with _ | t
      · have he : execute_function reg n a =
            Except.error ("Function " ++ n ++ " not found in registry") := by
          unfold execute_function
          rw [hl]
        simp [execSubtask, hp, he] at hs
      · exact ⟨n, t, rfl, hl⟩

/-- C6: dispatch filters the argument map down to declared parameter names
before invoking the tool - an argument map carrying an extra key not among
the declared parameters produces the same filtered arguments, so a call that
succeeds without the extra key still succeeds with it, and every filtered
argument key is a declared parameter. -/
theorem c6_unknown_keys_dropped (reg : Registry) (n : String) (t : Tool)
    (args : ArgsDict) (k : String) (v : PyVal) (r : PyVal)
    (hlk : lookupKey reg n = Option.some t) (hk : ¬ k ∈ t.params) :
    filterArgs t.params (dictInsert args k v) = filterArgs t.params args
    ∧ (execute_function reg n args = Except.ok r →
        execute_function reg n (dictInsert args k v) = Except.ok r)
    ∧ ∀ p ∈ filterArgs t.params (dictInsert args k v), p.1 ∈ t.params := by
  have hfa := filterArgs_dictInsert_not_param t.params args k v hk
  have hx : execute_function reg n args = t.impl (filterArgs t.params args) := by
    unfold execute_function
    rw [hlk]
  have hy : execute_function reg n (dictInsert args k v) =
      t.impl (filterArgs t.params (dictInsert args k v)) := by
    unfold execute_function
    rw [hlk]
  refine ⟨hfa, ?_, ?_⟩
  · intro h
    rw [hy, hfa, ← hx]
    exact h
  · intro p hp
    exact filterArgs_keys_mem _ _ p hp

/-- C2: parsing the canonical call-mode input yields function name f and the
typed argument map with the comma inside the quoted value preserved; in
general a quoted substring, whatever commas it contains, is never split -
the quote-state scan returns it as a single argument. -/
theorem c2_call_mode_form (s : String)
    (hs : ∀ c ∈ s.data, ¬(c = dq ∨ c = sq)) :
    parse_function_call "f(a=1, b=\"x,y\", c=true, d=none)" =
      (Option.some "f",
        [("a", PyVal.int 1), ("b", PyVal.str "x,y"),
         ("c", PyVal.bool true), ("d", PyVal.none)])
    ∧ (splitArgs (dq :: s.data ++ [dq])).length = 1 := by
  constructor
  · decide
  · unfold splitArgs
    show (splitArgsGo (dq :: (s.data ++ [dq])) false ' ' []).length = 1
    have h1 : splitArgsGo (dq :: (s.data ++ [dq])) false ' ' [] =
        splitArgsGo (s.data ++ [dq]) true dq ([] ++ [dq]) := by
      rw [splitArgsGo, if_pos (Or.inl rfl)]
      simp
    rw [h1, splitArgsGo_inString s.data hs [dq] dq ([] ++ [dq])]
    rw [splitArgsGo, if_pos (Or.inl rfl), if_pos rfl, if_pos rfl]
    simp [splitArgsGo]

/-- Witness for C2 at the canonical quoted value x,y. -/
theorem c2_call_mode_form_witness :
    parse_function_call "f(a=1, b=\"x,y\", c=true, d=none)" =
      (Option.some "f",
        [("a", PyVal.int 1), ("b", PyVal.str "x,y"),
         ("c", PyVal.bool true), ("d", PyVal.none)])
    ∧ (splitArgs (dq :: "x,y".data ++ [dq])).length = 1 :=
  c2_call_mode_form "x,y" (by decide)

/-- Witness for C9 at concrete values: a quoted true stays a string, TRUE
becomes a boolean, None becomes null, 3.5 becomes the float 7/2, -5 and 1e3
stay raw strings, and a key=value pair is trimmed then coerced. -/
theorem c9_value_coercion_precedence_witness :
    coerceValue (String.mk (dq :: "true".data ++ [dq])) = PyVal.str "true"
    ∧ coerceValue "TRUE" = PyVal.bool true
    ∧ coerceValue "None" = PyVal.none
    ∧ coerceValue "3.5" = PyVal.float (parsePyFloat "3.5".data)
    ∧ coerceValue "12" = PyVal.int 12
    ∧ coerceValue "-5" = PyVal.str "-5"
    ∧ coerceValue "1e3" = PyVal.str "1e3"
    ∧ processArg (String.mk ("b ".data ++ '=' :: " 1 ".data)) =
        Option.some ("b", PyVal.int 1) := by
  refine ⟨c9_value_coercion_precedence.1 "true",
    c9_value_coercion_precedence.2.2.1 "TRUE" (by decide) (by decide),
    c9_value_coercion_precedence.2.2.2.2.1 "None" (by decide) (by decide)
      (by decide) (by decide),
    (c9_value_coercion_precedence.2.2.2.2.2.1 "3.5" (by decide) (by decide)
      (by decide) (by decide) (by decide)).trans (by rfl),
    (c9_value_coercion_precedence.2.2.2.2.2.1 "12" (by decide) (by decide)
      (by decide) (by decide) (by decide)).trans (by decide),
    c9_value_coercion_precedence.2.2.2.2.2.2.1 "-5" (by decide) (by decide)
      (by decide) (by decide) (by decide),
    c9_value_coercion_precedence.2.2.2.2.2.2.1 "1e3" (by decide) (by decide)
      (by decide) (by decide) (by decide),
    (c9_value_coercion_precedence.2.2.2.2.2.2.2 "b " " 1 " (by decide)).trans
      (by decide)⟩

/-- Witness for C1 at the demo registry: a missing name fails with the
not-found error, an unparseable response fails the subtask, a parsed name
absent from the registry records the not-found error, and a successful
subtask used a registered name. -/
theorem c1_unknown_function_fails_witness :
    execute_function demoReg "ai_missing" [] =
      Except.error ("Function " ++ "ai_missing" ++ " not found in registry")
    ∧ (execSubtask demoReg 0 "sub" "???").success = false
    ∧ (execSubtask demoReg 0 "sub" "ai_missing(x=1)").error =
        Option.some ("Function " ++ "ai_missing" ++ " not found in registry")
    ∧ ∃ (n : String) (t : Tool),
        (parse_function_call (cleanResponse "ai_add(a=2, b=3)")).1 = Option.some n
        ∧ lookupKey demoReg n = Option.some t :=
  ⟨(c1_unknown_function_fails demoReg "???" "ai_missing" [] 0 "sub").1 rfl,
    ((c1_unknown_function_fails demoReg "???" "ai_missing" [] 0 "sub").2.1
      (by decide)).1,
    ((c1_unknown_function_fails demoReg "ai_missing(x=1)" "ai_missing" [] 0
        "sub").2.2.1 "ai_missing" [("x", PyVal.int 1)] (by decide) rfl).2,
    (c1_unknown_function_fails demoReg "ai_add(a=2, b=3)" "ai_missing" [] 0
        "sub").2.2.2 (by decide)⟩

/-- Witness for C6 at the demo registry: an extra key c is dropped and the
call still succeeds. -/
theorem c6_unknown_keys_dropped_witness :
    filterArgs demoAdd.params
        (dictInsert [("a", PyVal.int 2), ("b", PyVal.int 3)] "c" (PyVal.int 9)) =
      filterArgs demoAdd.params [("a", PyVal.int 2), ("b", PyVal.int 3)]
    ∧ execute_function demoReg "ai_add"
        (dictInsert [("a", PyVal.int 2), ("b", PyVal.int 3)] "c" (PyVal.int 9)) =
      Except.ok (PyVal.int 5) := by
  have h := c6_unknown_keys_dropped demoReg "ai_add" demoAdd
    [("a", PyVal.int 2), ("b", PyVal.int 3)] "c" (PyVal.int 9) (PyVal.int 5)
    rfl (by decide)
  exact ⟨h.1, h.2.1 rfl⟩

/-! ### C5: the argument span -/

theorem findOpen_append (pre rest : List Char) (hpre : ¬ '(' ∈ pre)
    (hr : rest.contains ')' = true) :
    findOpen (pre ++ '(' :: rest) = Option.some rest := by
  induction pre with
  | nil =>
    show findOpen ('(' :: rest) = Option.some rest
    rw [findOpen, if_pos rfl, if_pos hr]
  | cons c t ih =>
    have hc : ¬ c = '(' := fun h => hpre (h ▸ List.mem_cons_self c t)
    have ht : ¬ '(' ∈ t := fun hm => hpre (List.mem_cons_of_mem c hm)
    show findOpen (c :: (t ++ '(' :: rest)) = Option.some rest
    rw [findOpen, if_neg hc]
    exact ih ht

theorem upToLastClose_append (mid tail : List Char) (htail : ¬ ')' ∈ tail) :
    upToLastClose (mid ++ ')' :: tail) = mid := by
  unfold upToLastClose
  have h1 : (mid ++ ')' :: tail).reverse = tail.reverse ++ ')' :: mid.reverse := by
    rw [List.reverse_append, List.reverse_cons, List.append_assoc]
    rfl
  rw [h1]
  have hall : ∀ c ∈ tail.reverse, (fun c => !(c = ')')) c = true := by
    intro c hc
    have hmem : c ∈ tail := List.mem_reverse.mp hc
    have hne : ¬ c = ')' := fun h => htail (h ▸ hmem)
    simp [hne]
  rw [dropWhile_append_of_all _ _ hall]
  rw [List.dropWhile_cons_of_neg (by simp)]
  simp

/-- C5 (amended): the argument span handed to argument splitting is
everything between the first opening parenthesis and the LAST closing
parenthesis of the entire input - the greedy DOTALL regex runs to the last
closing parenthesis, not to the one matching the first opening parenthesis. -/
theorem c5_span_to_last_close (pre mid tail : List Char)
    (hpre : ¬ '(' ∈ pre) (htail : ¬ ')' ∈ tail) :
    extractArgsSpan (pre ++ '(' :: (mid ++ ')' :: tail)) = Option.some mid := by
  unfold extractArgsSpan
  have hr : (mid ++ ')' :: tail).contains ')' = true :=
    List.elem_eq_true_of_mem (List.mem_append_right _ (List.mem_cons_self _ _))
  rw [findOpen_append _ _ hpre hr]
  show Option.some (upToLastClose (mid ++ ')' :: tail)) = Option.some mid
  rw [upToLastClose_append mid tail htail]

/-- Witness for C5 (amended) at a concrete input whose body contains a
closing parenthesis. -/
theorem c5_span_to_last_close_witness :
    extractArgsSpan ("f".data ++ '(' :: ("a=1) (b=2".data ++ ')' :: " tail".data)) =
      Option.some "a=1) (b=2".data :=
  c5_span_to_last_close "f".data "a=1) (b=2".data " tail".data (by decide) (by decide)

/-- C5 counterexample: on the input f(a=1) (b=2) the source captures up to
the last closing parenthesis, which differs from the span up to the
parenthesis matching the first opening one, and the parsed arguments show
it. -/
theorem c5_matching_paren_counterexample :
    extractArgsSpan (String.data "f(a=1) (b=2)") =
      Option.some (String.data "a=1) (b=2")
    ∧ matchingParenSpan (String.data "f(a=1) (b=2)") =
        Option.some (String.data "a=1")
    ∧ ¬ extractArgsSpan (String.data "f(a=1) (b=2)") =
        matchingParenSpan (String.data "f(a=1) (b=2)")
    ∧ parse_function_call "f(a=1) (b=2)" =
        (Option.some "f", [("a", PyVal.str "1) (b=2")]) :=
  ⟨by decide, by decide, by decide, by decide⟩

/-! ### C4: parse failure of the bracketed span -/

/-- C4 (amended): a bracketed span that fails to literal-parse is caught
(logged) and the function returns the empty plan directly - it does not
raise, and it does not fall through to the line-based fallback, which runs
only when no bracketed span exists at all. -/
theorem c4_parse_error_empty_plan (r : String) (span : List Char)
    (h1 : extractBracketSpan r.data = Option.some span)
    (h2 : literalEvalStrList (String.mk span) = Option.none) :
    process_llm1_response r = [] := by
  unfold process_llm1_response
  rw [h1]
  show (match literalEvalStrList (String.mk span) with
    | Option.some xs => xs
    | Option.none => []) = []
  rw [h2]

/-- Witness for C4 (amended) at the input [foo], whose span [foo] is not a
literal. -/
theorem c4_parse_error_empty_plan_witness :
    process_llm1_response "[foo]" = [] :=
  c4_parse_error_empty_plan "[foo]" "[foo]".data (by decide) (by decide)

/-- C4 counterexample: on the input [foo] the parse error does NOT fall
through to the line-based fallback - the fallback would produce the whole
response as a single-item plan, while the source returns the empty plan. -/
theorem c4_no_fallback_counterexample :
    process_llm1_response "[foo]" = []
    ∧ llm1_fallback "[foo]" = ["[foo]"]
    ∧ ¬ process_llm1_response "[foo]" = llm1_fallback "[foo]" :=
  ⟨by decide, by decide, by decide⟩

/-! ### C8: registry scan resilience -/

theorem lookupKey_dictInsert_self {α : Type} (d : List (String × α))
    (k : String) (v : α) : lookupKey (dictInsert d k v) k = Option.some v := by
  induction d with
  | nil => simp [dictInsert, lookupKey]
  | cons hd t ih =>
    obtain ⟨k1, w⟩ := hd
    by_cases hk : k1 = k
    · subst hk; simp [dictInsert, lookupKey]
    · simp [dictInsert, lookupKey, hk, ih]

theorem isSome_lookup_dictInsert {α : Type} (d : List (String × α))
    (k k2 : String) (v : α) (h : (lookupKey d k2).isSome = true) :
    (lookupKey (dictInsert d k v) k2).isSome = true := by
  by_cases hk : k = k2
  · subst hk; rw [lookupKey_dictInsert_self]; rfl
  · rw [lookupKey_dictInsert_ne d k k2 v hk]; exact h

theorem isSome_lookup_registerModule (ms : List (String × Tool))
    (reg : Registry) (n : String) (h : (lookupKey reg n).isSome = true) :
    (lookupKey (registerModule reg ms) n).isSome = true := by
  induction ms generalizing reg with
  | nil => exact h
  | cons m t ih =>
    show (lookupKey (registerModule
      (if pyStartsWith m.1 "ai_" then dictInsert reg m.1 m.2 else reg) t) n).isSome = true
    by_cases hp : pyStartsWith m.1 "ai_" = true
    · rw [if_pos hp]
      exact ih _ (isSome_lookup_dictInsert reg m.1 n m.2 h)
    · rw [if_neg hp]
      exact ih _ h

theorem registerModule_adds (ms : List (String × Tool)) (reg : Registry)
    (n : String) (t : Tool) (hmem : (n, t) ∈ ms)
    (hpref : pyStartsWith n "ai_" = true) :
    (lookupKey (registerModule reg ms) n).isSome = true := by
  induction ms generalizing reg with
  | nil => cases hmem
  | cons m rest ih =>
    rcases List.mem_cons.mp hmem with heq | htail
    · subst heq
      show (lookupKey (registerModule
        (if pyStartsWith n "ai_" then dictInsert reg n t else reg) rest) n).isSome = true
      rw [if_pos hpref]
      apply isSome_lookup_registerModule
      rw [lookupKey_dictInsert_self]
      rfl
    · show (lookupKey (registerModule
        (if pyStartsWith m.1 "ai_" then dictInsert reg m.1 m.2 else reg) rest) n).isSome = true
      exact ih _ htail

/-- The per-file step of the directory scan. -/
theorem isSome_lookup_scan_step (f : PyFile) (reg : Registry) (n : String)
    (h : (lookupKey reg n).isSome = true) :
    (lookupKey (if pyEndsWith f.filename ".py" && !(pyStartsWith f.filename "__") then
        match f.load with
        | ModuleLoad.ok ms => registerModule reg ms
        | ModuleLoad.loadError _ => reg
      else reg) n).isSome = true := by
  by_cases hc : (pyEndsWith f.filename ".py" && !(pyStartsWith f.filename "__")) = true
  · rw [if_pos hc]
    rcases f.load with ms | msg
    · exact isSome_lookup_registerModule ms reg n h
    · exact h
  · rw [if_neg hc]
    exact h

theorem load_functions_cons (g : PyFile) (gs : List PyFile) (reg : Registry) :
    load_functions_from_directory (g :: gs) reg =
      load_functions_from_directory gs
        (if pyEndsWith g.filename ".py" && !(pyStartsWith g.filename "__") then
          match g.load with
          | ModuleLoad.ok ms => registerModule reg ms
          | ModuleLoad.loadError _ => reg
        else reg) := by
  unfold load_functions_from_directory
  rw [List.foldl_cons]

theorem isSome_lookup_scan (files : List PyFile) (reg : Registry) (n : String)
    (h : (lookupKey reg n).isSome = true) :
    (lookupKey (load_functions_from_directory files reg) n).isSome = true := by
  induction files generalizing reg with
  | nil => exact h
  | cons f fs ih =>
    rw [load_functions_cons]
    exact ih _ (isSome_lookup_scan_step f reg n h)

/-- C8: the directory scan is resilient - a malformed module is skipped and
every ai_-prefixed function of every well-formed tool module in the
directory is present in the resulting registry, whatever other modules
(including unloadable ones) the directory contains. -/
theorem c8_scan_survives_bad_module (files : List PyFile) (reg : Registry)
    (f : PyFile) (hf : f ∈ files) (hpy : pyEndsWith f.filename ".py" = true)
    (hus : pyStartsWith f.filename "__" = false) (ms : List (String × Tool))
    (hok : f.load = ModuleLoad.ok ms) (n : String) (t : Tool)
    (hmem : (n, t) ∈ ms) (hpref : pyStartsWith n "ai_" = true) :
    (lookupKey (load_functions_from_directory files reg) n).isSome = true := by
  induction files generalizing reg with
  | nil => cases hf
  | cons g gs ih =>
    rw [load_functions_cons]
    rcases List.mem_cons.mp hf with heq | htail
    · subst heq
      apply isSome_lookup_scan
      rw [if_pos (by rw [hpy, hus]; rfl), hok]
      exact registerModule_adds ms reg n t hmem hpref
    · exact ih _ htail

/-- Witness for C8 at the demo directory: the two tools around the
malformed module are both registered. -/
theorem c8_scan_survives_bad_module_witness :
    (lookupKey (load_functions_from_directory demoFiles []) "ai_add").isSome = true
    ∧ (lookupKey (load_functions_from_directory demoFiles []) "ai_bad").isSome = true := by
  constructor
  · exact c8_scan_survives_bad_module demoFiles []
      { filename := "good1.py", load := ModuleLoad.ok [("ai_add", demoAdd)] }
      (by unfold demoFiles; exact List.mem_cons_self _ _)
      (by decide) (by decide) [("ai_add", demoAdd)] rfl "ai_add" demoAdd
      (List.mem_cons_self _ _) (by decide)
  · exact c8_scan_survives_bad_module demoFiles []
      { filename := "good2.py", load := ModuleLoad.ok [("ai_bad", demoFail)] }
      (by unfold demoFiles
          exact List.mem_cons_of_mem _ (List.mem_cons_of_mem _ (List.mem_cons_self _ _)))
      (by decide) (by decide) [("ai_bad", demoFail)] rfl "ai_bad" demoFail
      (List.mem_cons_self _ _) (by decide)

/-! ### C7: the orchestrator loop -/

theorem run_agent_loop_cons_fst (reg : Registry) (llm2 : String → String)
    (d : String) (rest : List String) (i : Nat) (succ : Bool) (err : Option String) :
    (run_agent_loop reg llm2 (d :: rest) i succ err).1 =
      execSubtask reg i d (llm2 d) ::
        (run_agent_loop reg llm2 rest (i + 1)
          (succ && (execSubtask reg i d (llm2 d)).success)
          (if (execSubtask reg i d (llm2 d)).success = true then err
           else if pyFalsyStrOpt err = true then
             Option.some ("Error in subtask " ++ toString (i + 1) ++ ": " ++
               errText (execSubtask reg i d (llm2 d)))
           else err)).1 := rfl

theorem run_agent_loop_cons_success (reg : Registry) (llm2 : String → String)
    (d : String) (rest : List String) (i : Nat) (succ : Bool) (err : Option String) :
    (run_agent_loop reg llm2 (d :: rest) i succ err).2.1 =
      (run_agent_loop reg llm2 rest (i + 1)
        (succ && (execSubtask reg i d (llm2 d)).success)
        (if (execSubtask reg i d (llm2 d)).success = true then err
         else if pyFalsyStrOpt err = true then
           Option.some ("Error in subtask " ++ toString (i + 1) ++ ": " ++
             errText (execSubtask reg i d (llm2 d)))
         else err)).2.1 := rfl

theorem run_agent_loop_cons_err (reg : Registry) (llm2 : String → String)
    (d : String) (rest : List String) (i : Nat) (succ : Bool) (err : Option String) :
    (run_agent_loop reg llm2 (d :: rest) i succ err).2.2 =
      (run_agent_loop reg llm2 rest (i + 1)
        (succ && (execSubtask reg i d (llm2 d)).success)
        (if (execSubtask reg i d (llm2 d)).success = true then err
         else if pyFalsyStrOpt err = true then
           Option.some ("Error in subtask " ++ toString (i + 1) ++ ": " ++
             errText (execSubtask reg i d (llm2 d)))
         else err)).2.2 := rfl

theorem run_agent_loop_length (reg : Registry) (llm2 : String → String)
    (subs : List String) : ∀ (i : Nat) (s : Bool) (e : Option String),
    (run_agent_loop reg llm2 subs i s e).1.length = subs.length := by
  induction subs with
  | nil => intro i s e; rfl
  | cons d rest ih =>
    intro i s e
    rw [run_agent_loop_cons_fst, List.length_cons, ih]
    rfl

theorem run_agent_loop_get (reg : Registry) (llm2 : String → String)
    (subs : List String) : ∀ (i : Nat) (s : Bool) (e : Option String) (j : Nat),
    (run_agent_loop reg llm2 subs i s e).1[j]? =
      (subs[j]?).map (fun dj => execSubtask reg (i + j) dj (llm2 dj)) := by
  induction subs with
  | nil => intro i s e j; simp [run_agent_loop]
  | cons d rest ih =>
    intro i s e j
    rw [run_agent_loop_cons_fst]
    cases j with
    | zero => simp
    | succ j2 =>
      rw [List.getElem?_cons_succ, List.getElem?_cons_succ, ih]
      rw [show i + (j2 + 1) = i + 1 + j2 from by omega]

theorem run_agent_loop_success_false (reg : Registry) (llm2 : String → String)
    (subs : List String) : ∀ (i : Nat) (e : Option String),
    (run_agent_loop reg llm2 subs i false e).2.1 = false := by
  induction subs with
  | nil => intro i e; rfl
  | cons d rest ih =>
    intro i e
    rw [run_agent_loop_cons_success, Bool.false_and]
    exact ih _ _

theorem run_agent_loop_fail_success (reg : Registry) (llm2 : String → String)
    (subs : List String) : ∀ (i : Nat) (s : Bool) (e : Option String)
    (j : Nat) (dj : String), subs[j]? = Option.some dj →
    (execSubtask reg (i + j) dj (llm2 dj)).success = false →
    (run_agent_loop reg llm2 subs i s e).2.1 = false := by
  induction subs with
  | nil => intro i s e j dj hget _; simp at hget
  | cons d rest ih =>
    intro i s e j dj hget hfail
    rw [run_agent_loop_cons_success]
    cases j with
    | zero =>
      simp only [List.getElem?_cons_zero, Option.some.injEq] at hget
      subst hget
      rw [Nat.add_zero] at hfail
      rw [hfail, Bool.and_false]
      exact run_agent_loop_success_false reg llm2 rest _ _
    | succ j2 =>
      rw [List.getElem?_cons_succ] at hget
      rw [show i + (j2 + 1) = i + 1 + j2 from by omega] at hfail
      exact ih _ _ _ j2 dj hget hfail

theorem run_agent_loop_err_persist (reg : Registry) (llm2 : String → String)
    (subs : List String) : ∀ (i : Nat) (s : Bool) (e : Option String),
    pyFalsyStrOpt e = false → (run_agent_loop reg llm2 subs i s e).2.2 = e := by
  induction subs with
  | nil => intro i s e _; rfl
  | cons d rest ih =>
    intro i s e h
    rw [run_agent_loop_cons_err]
    have herr2 : (if (execSubtask reg i d (llm2 d)).success = true then e
        else if pyFalsyStrOpt e = true then
          Option.some ("Error in subtask " ++ toString (i + 1) ++ ": " ++
            errText (execSubtask reg i d (llm2 d)))
        else e) = e := by
      by_cases hs : (execSubtask reg i d (llm2 d)).success = true
      · rw [if_pos hs]
      · rw [if_neg hs, if_neg (by rw [h]; exact Bool.false_ne_true)]
    rw [herr2]
    exact ih _ _ _ h

theorem strAppend_not_falsy (a b : String) (ha : ¬ a.data = []) :
    pyFalsyStrOpt (Option.some (a ++ b)) = false := by
  show (a ++ b).isEmpty = false
  cases hI : (a ++ b).isEmpty
  · rfl
  · exfalso
    have h2 := (String.isEmpty_iff _).mp hI
    have h3 : a.data ++ b.data = [] := by
      have := congrArg String.data h2
      exact this
    exact ha (List.append_eq_nil.mp h3).1

theorem errMsg_not_falsy (t1 : String) (t2 : String) :
    pyFalsyStrOpt (Option.some ("Error in subtask " ++ t1 ++ ": " ++ t2)) = false := by
  apply strAppend_not_falsy
  intro h
  have h4 : ("Error in subtask ").data = [] :=
    (List.append_eq_nil.mp (List.append_eq_nil.mp h).1).1
  exact absurd h4 (by decide)

theorem execSubtask_fail_error (reg : Registry) (i : Nat) (d r : String) :
    (execSubtask reg i d r).success = false →
    ∃ m : String, (execSubtask reg i d r).error = Option.some m := by
  rcases hp : parse_function_call (cleanResponse r) with ⟨fn, a⟩
  cases fn with
  | none =>
    exact fun _ => ⟨"Could not parse function call: " ++ cleanResponse r,
      by simp [execSubtask, hp]⟩
  | some n =>
    cases he : execute_function reg n a with
    | ok v =>
      intro hs
      simp [execSubtask, hp, he] at hs
    | error e =>
      exact fun _ => ⟨e, by simp [execSubtask, hp, he]⟩

theorem run_agent_loop_first_err (reg : Registry) (llm2 : String → String)
    (subs : List String) : ∀ (i : Nat) (s : Bool) (e : Option String)
    (j : Nat) (dj : String),
    pyFalsyStrOpt e = true →
    subs[j]? = Option.some dj →
    (execSubtask reg (i + j) dj (llm2 dj)).success = false →
    (∀ (j2 : Nat) (d2 : String), j2 < j → subs[j2]? = Option.some d2 →
      (execSubtask reg (i + j2) d2 (llm2 d2)).success = true) →
    (run_agent_loop reg llm2 subs i s e).2.2 =
      Option.some ("Error in subtask " ++ toString (i + j + 1) ++ ": " ++
        errText (execSubtask reg (i + j) dj (llm2 dj))) := by
  induction subs with
  | nil => intro i s e j dj _ hget _ _; simp at hget
  | cons d rest ih =>
    intro i s e j dj hfalsy hget hfail hbefore
    rw [run_agent_loop_cons_err]
    cases j with
    | zero =>
      simp only [List.getElem?_cons_zero, Option.some.injEq] at hget
      subst hget
      rw [Nat.add_zero] at hfail ⊢
      rw [if_neg (by rw [hfail]; exact Bool.false_ne_true), if_pos hfalsy]
      exact run_agent_loop_err_persist reg llm2 rest _ _ _
        (errMsg_not_falsy _ _)
    | succ j2 =>
      rw [List.getElem?_cons_succ] at hget
      have hs0 : (execSubtask reg i d (llm2 d)).success = true := by
        have := hbefore 0 d (Nat.succ_pos j2) (by simp)
        rwa [Nat.add_zero] at this
      rw [if_pos hs0]
      rw [show i + (j2 + 1) = i + 1 + j2 from by omega] at hfail ⊢
      apply ih _ _ _ j2 dj hfalsy hget hfail
      intro j3 d3 hlt hg
      have := hbefore (j3 + 1) d3 (Nat.succ_lt_succ hlt)
        (by rwa [List.getElem?_cons_succ])
      rwa [show i + (j3 + 1) = i + 1 + j3 from by omega] at this

/-- C7 (amended): when some subtask in the plan fails (its dispatch raises),
the loop continues: every subtask is executed and recorded in order, the
failing entry has success false and its error field set to the exception
text (which is empty exactly when the raised exception stringifies to the
empty string, e.g. a bare ValueError - the original claim said non-empty),
the overall trace success flag is false, and if the failing subtask is the
first failure the top-level error field holds that failure message (later
failures cannot overwrite it). -/
theorem c7_loop_continue_on_error (reg : Registry) (llm2 : String → String)
    (subtasks : List String) (i : Nat) (d : String)
    (hd : subtasks[i]? = Option.some d)
    (hfail : (execSubtask reg i d (llm2 d)).success = false) :
    (run_agent_loop reg llm2 subtasks 0 true Option.none).1.length = subtasks.length
    ∧ (∀ j : Nat, (run_agent_loop reg llm2 subtasks 0 true Option.none).1[j]? =
        (subtasks[j]?).map (fun dj => execSubtask reg j dj (llm2 dj)))
    ∧ (run_agent_loop reg llm2 subtasks 0 true Option.none).2.1 = false
    ∧ ((run_agent_loop reg llm2 subtasks 0 true Option.none).1[i]?).map
        SubtaskResult.success = Option.some false
    ∧ (∃ m : String, (execSubtask reg i d (llm2 d)).error = Option.some m
        ∧ ((run_agent_loop reg llm2 subtasks 0 true Option.none).1[i]?).map
            SubtaskResult.error = Option.some (Option.some m))
    ∧ ((∀ (j : Nat) (dj : String), j < i → subtasks[j]? = Option.some dj →
          (execSubtask reg j dj (llm2 dj)).success = true) →
        (run_agent_loop reg llm2 subtasks 0 true Option.none).2.2 =
          Option.some ("Error in subtask " ++ toString (i + 1) ++ ": " ++
            errText (execSubtask reg i d (llm2 d)))) := by
  have hL2 : ∀ j : Nat,
      (run_agent_loop reg llm2 subtasks 0 true Option.none).1[j]? =
        (subtasks[j]?).map (fun dj => execSubtask reg j dj (llm2 dj)) := by
    intro j
    rw [run_agent_loop_get reg llm2 subtasks 0 true Option.none j]
    simp [Nat.zero_add]
  refine ⟨run_agent_loop_length reg llm2 subtasks 0 true Option.none, hL2,
    ?_, ?_, ?_, ?_⟩
  · exact run_agent_loop_fail_success reg llm2 subtasks 0 true Option.none i d hd
      (by rw [Nat.zero_add]; exact hfail)
  · rw [hL2 i, hd]
    simp [hfail]
  · obtain ⟨m, hm⟩ := execSubtask_fail_error reg i d (llm2 d) hfail
    refine ⟨m, hm, ?_⟩
    rw [hL2 i, hd]
    simp [hm]
  · intro hbefore
    have h := run_agent_loop_first_err reg llm2 subtasks 0 true Option.none i d
      rfl hd (by rw [Nat.zero_add]; exact hfail)
      (fun j2 d2 hlt hg => by rw [Nat.zero_add]; exact hbefore j2 d2 hlt hg)
    simpa only [Nat.zero_add] using h

/-- Witness for C7 (amended): a two-subtask plan whose first subtask fails
to parse; the second still executes and is recorded, the success flag
clears, and the top-level error holds the first failure message. -/
theorem c7_loop_continue_on_error_witness :
    (run_agent_loop demoReg (fun _ => "nonsense") ["s1", "s2"] 0 true
      Option.none).1.length = (["s1", "s2"] : List String).length
    ∧ (run_agent_loop demoReg (fun _ => "nonsense") ["s1", "s2"] 0 true
        Option.none).1[1]? =
      Option.some (execSubtask demoReg 1 "s2" "nonsense")
    ∧ (run_agent_loop demoReg (fun _ => "nonsense") ["s1", "s2"] 0 true
        Option.none).2.1 = false
    ∧ (run_agent_loop demoReg (fun _ => "nonsense") ["s1", "s2"] 0 true
        Option.none).2.2 =
      Option.some ("Error in subtask " ++ toString (0 + 1) ++ ": " ++
        errText (execSubtask demoReg 0 "s1" "nonsense")) := by
  have h := c7_loop_continue_on_error demoReg (fun _ => "nonsense")
    ["s1", "s2"] 0 "s1" (by simp) (by decide)
  exact ⟨h.1, (h.2.1 1).trans (by decide), h.2.2.1,
    h.2.2.2.2.2 (fun j dj hlt _ => absurd hlt (Nat.not_lt_zero j))⟩

/-- C7 counterexample: a tool that raises an exception with an empty message
(a bare ValueError) yields a failing subtask entry whose recorded error is
the EMPTY string - the claim says every failing entry has a non-empty error.
The top-level error field still carries only the prefix. -/
theorem c7_nonempty_error_counterexample :
    ((run_agent_loop demoReg (fun _ => "ai_bad()") ["do"] 0 true
        Option.none).1[0]?).map SubtaskResult.success = Option.some false
    ∧ ((run_agent_loop demoReg (fun _ => "ai_bad()") ["do"] 0 true
        Option.none).1[0]?).map SubtaskResult.error =
      Option.some (Option.some "")
    ∧ (run_agent_loop demoReg (fun _ => "ai_bad()") ["do"] 0 true
        Option.none).2.2 = Option.some "Error in subtask 1: " :=
  ⟨by decide, by decide, by decide⟩

/-! ### C3: round-trip of the stringified list -/

theorem parseStrLit_cons (q c : Char) (l : List Char) :
    parseStrLit q (c :: l) =
      (if c = q then Option.some ([], l)
       else if c = bslash then
         match l with
         | [] => Option.none
         | e :: rest2 =>
           (parseStrLit q rest2).map (fun p => (unescape e ++ p.1, p.2))
       else if c = nlc ∨ c = crc then Option.none
       else (parseStrLit q l).map (fun p => (c :: p.1, p.2))) := by
  rw [parseStrLit.eq_def]

theorem parseStrLit_raw (q c : Char) (l : List Char) (h1 : ¬ c = q)
    (h2 : ¬ c = bslash) (h3 : ¬ (c = nlc ∨ c = crc)) :
    parseStrLit q (c :: l) = (parseStrLit q l).map (fun p => (c :: p.1, p.2)) := by
  rw [parseStrLit_cons, if_neg h1, if_neg h2, if_neg h3]

theorem parseStrLit_esc (q e : Char) (l : List Char) (hq : ¬ bslash = q) :
    parseStrLit q (bslash :: e :: l) =
      (parseStrLit q l).map (fun p => (unescape e ++ p.1, p.2)) := by
  rw [parseStrLit_cons, if_neg hq, if_pos rfl]

theorem parseStrLit_escStr (q : Char) (hq : q = sq ∨ q = dq) (cs : List Char) :
    ∀ rest : List Char,
      parseStrLit q (escStr q cs ++ q :: rest) = Option.some (cs, rest) := by
  have hbq : ¬ bslash = q := by rcases hq with h | h <;> subst h <;> decide
  induction cs with
  | nil =>
    intro rest
    show parseStrLit q (q :: rest) = Option.some ([], rest)
    rw [parseStrLit_cons, if_pos rfl]
  | cons c t ih =>
    intro rest
    show parseStrLit q ((escChar q c ++ escStr q t) ++ q :: rest) = _
    rw [List.append_assoc]
    unfold escChar
    by_cases h1 : c = bslash
    · rw [if_pos h1]
      show parseStrLit q (bslash :: bslash :: (escStr q t ++ q :: rest)) = _
      rw [parseStrLit_esc q bslash _ hbq, ih rest]
      subst h1
      rfl
    · rw [if_neg h1]
      by_cases h2 : c = nlc
      · rw [if_pos h2]
        show parseStrLit q (bslash :: 'n' :: (escStr q t ++ q :: rest)) = _
        rw [parseStrLit_esc q 'n' _ hbq, ih rest]
        subst h2
        rfl
      · rw [if_neg h2]
        by_cases h3 : c = crc
        · rw [if_pos h3]
          show parseStrLit q (bslash :: 'r' :: (escStr q t ++ q :: rest)) = _
          rw [parseStrLit_esc q 'r' _ hbq, ih rest]
          subst h3
          rfl
        · rw [if_neg h3]
          by_cases h4 : c = tabc
          · rw [if_pos h4]
            show parseStrLit q (bslash :: 't' :: (escStr q t ++ q :: rest)) = _
            rw [parseStrLit_esc q 't' _ hbq, ih rest]
            subst h4
            rfl
          · rw [if_neg h4]
            by_cases h5 : c = q
            · rw [if_pos h5]
              show parseStrLit q (bslash :: q :: (escStr q t ++ q :: rest)) = _
              rw [parseStrLit_esc q q _ hbq, ih rest]
              subst h5
              rcases hq with h | h <;> subst h <;> rfl
            · rw [if_neg h5]
              show parseStrLit q (c :: (escStr q t ++ q :: rest)) = _
              rw [parseStrLit_raw q c _ h5 h1 (fun hc => hc.elim h2 h3), ih rest]
              rfl

theorem reprQuote_cases (cs : List Char) : reprQuote cs = sq ∨ reprQuote cs = dq := by
  unfold reprQuote
  by_cases h : (cs.contains sq && !(cs.contains dq)) = true
  · rw [if_pos h]
    exact Or.inr rfl
  · rw [if_neg h]
    exact Or.inl rfl

theorem parseElems_close (f : Nat) (tail : List Char) :
    parseElems (f + 1) (']' :: tail) = Option.some ([], tail) := rfl

theorem parseElems_skip_space (f : Nat) (M : List Char) :
    parseElems (f + 1) (' ' :: M) = parseElems (f + 1) M := by
  rw [parseElems, parseElems,
    show skipWs (' ' :: M) = skipWs M from List.dropWhile_cons_of_pos (by decide)]

theorem parseElems_quote (f : Nat) (q : Char) (L : List Char)
    (hq : q = sq ∨ q = dq) :
    parseElems (f + 1) (q :: L) =
      (match parseStrLit q L with
       | Option.none => Option.none
       | Option.some (content, rest2) =>
         match skipWs rest2 with
         | ',' :: rest3 =>
           (parseElems f rest3).map (fun p => (String.mk content :: p.1, p.2))
         | ']' :: rest3 => Option.some ([String.mk content], rest3)
         | _ => Option.none) := by
  have hnq : isPySpace q = false := by rcases hq with h | h <;> subst h <;> decide
  have hq1 : ¬ q = ']' := by rcases hq with h | h <;> subst h <;> decide
  rw [parseElems,
    show skipWs (q :: L) = q :: L from List.dropWhile_cons_of_neg (by simp [hnq])]
  show (if q = ']' then Option.some ([], L)
    else if q = sq ∨ q = dq then
      match parseStrLit q L with
      | Option.none => Option.none
      | Option.some (content, rest2) =>
        match skipWs rest2 with
        | ',' :: rest3 =>
          (parseElems f rest3).map (fun p => (String.mk content :: p.1, p.2))
        | ']' :: rest3 => Option.some ([String.mk content], rest3)
        | _ => Option.none
    else Option.none) = _
  rw [if_neg hq1, if_pos hq]

theorem parseElems_last (f : Nat) (q : Char) (L content tail : List Char)
    (hq : q = sq ∨ q = dq)
    (hL : parseStrLit q L = Option.some (content, ']' :: tail)) :
    parseElems (f + 1) (q :: L) = Option.some ([String.mk content], tail) := by
  rw [parseElems_quote f q L hq, hL]
  rfl

theorem parseElems_more (f : Nat) (q : Char) (L content rest3 : List Char)
    (hq : q = sq ∨ q = dq)
    (hL : parseStrLit q L = Option.some (content, ',' :: ' ' :: rest3)) :
    parseElems (f + 1) (q :: L) =
      (parseElems f (' ' :: rest3)).map (fun p => (String.mk content :: p.1, p.2)) := by
  rw [parseElems_quote f q L hq, hL]
  rfl

theorem not_mem_escChar (q c : Char) (hc : ¬ c = ']') (hq : q = sq ∨ q = dq) :
    ¬ ']' ∈ escChar q c := by
  intro hmem
  unfold escChar at hmem
  by_cases h1 : c = bslash
  · rw [if_pos h1] at hmem
    exact absurd hmem (by decide)
  · rw [if_neg h1] at hmem
    by_cases h2 : c = nlc
    · rw [if_pos h2] at hmem
      exact absurd hmem (by decide)
    · rw [if_neg h2] at hmem
      by_cases h3 : c = crc
      · rw [if_pos h3] at hmem
        exact absurd hmem (by decide)
      · rw [if_neg h3] at hmem
        by_cases h4 : c = tabc
        · rw [if_pos h4] at hmem
          exact absurd hmem (by decide)
        · rw [if_neg h4] at hmem
          by_cases h5 : c = q
          · rw [if_pos h5] at hmem
            rcases hq with h | h <;> subst h <;> exact absurd hmem (by decide)
          · rw [if_neg h5] at hmem
            have hx := List.mem_singleton.mp hmem
            first
            | exact hc hx
            | exact hc hx.symm

theorem not_mem_escStr (q : Char) (hq : q = sq ∨ q = dq) (cs : List Char)
    (h : ¬ ']' ∈ cs) : ¬ ']' ∈ escStr q cs := by
  induction cs with
  | nil => intro hmem; cases hmem
  | cons c t ih =>
    intro hmem
    have hc : ¬ c = ']' := fun he => h (he ▸ List.mem_cons_self c t)
    have ht : ¬ ']' ∈ t := fun hm => h (List.mem_cons_of_mem c hm)
    rcases List.mem_append.mp hmem with h1 | h1
    · exact not_mem_escChar q c hc hq h1
    · exact ih ht h1

theorem not_mem_reprStrChars (s : String) (h : ¬ ']' ∈ s.data) :
    ¬ ']' ∈ reprStrChars s := by
  intro hmem
  unfold reprStrChars at hmem
  have hq := reprQuote_cases s.data
  have hqne : ¬ (']' : Char) = reprQuote s.data := by
    rcases hq with h1 | h1 <;> rw [h1] <;> decide
  rcases List.mem_cons.mp hmem with h1 | h1
  · exact hqne h1
  · rcases List.mem_append.mp h1 with h2 | h2
    · exact not_mem_escStr (reprQuote s.data) hq s.data h h2
    · exact hqne (List.mem_singleton.mp h2)

theorem not_mem_reprElems (xs : List String) (h : ∀ s ∈ xs, ¬ ']' ∈ s.data) :
    ¬ ']' ∈ reprElems xs := by
  induction xs with
  | nil => intro hmem; cases hmem
  | cons x t ih =>
    have hx : ¬ ']' ∈ x.data := h x (List.mem_cons_self x t)
    have ht : ∀ s ∈ t, ¬ ']' ∈ s.data := fun s hs => h s (List.mem_cons_of_mem x hs)
    cases t with
    | nil => exact not_mem_reprStrChars x hx
    | cons y t2 =>
      intro hmem
      show False
      rcases List.mem_append.mp hmem with h1 | h1
      · exact not_mem_reprStrChars x hx h1
      · rcases List.mem_cons.mp h1 with h2 | h2
        · exact absurd h2 (by decide)
        · rcases List.mem_cons.mp h2 with h3 | h3
          · exact absurd h3 (by decide)
          · exact ih ht h3

theorem extractBracketSpan_wrap (body : List Char) (h : ¬ ']' ∈ body) :
    extractBracketSpan ('[' :: body ++ [']']) =
      Option.some ('[' :: body ++ [']']) := by
  have hcont : (body ++ [']']).contains ']' = true :=
    List.elem_eq_true_of_mem (List.mem_append_right _ (List.mem_singleton.mpr rfl))
  have hfind : findBracket ('[' :: (body ++ [']'])) = Option.some (body ++ [']']) := by
    rw [findBracket, if_pos rfl, if_pos hcont]
  have htake : (body ++ [']']).takeWhile (fun c => !(c = ']')) = body := by
    rw [takeWhile_append_of_all _ _ (fun c hc => by
      simp [show ¬ c = ']' from fun he => h (he ▸ hc)])]
    rw [show ([']'] : List Char).takeWhile (fun c => !(c = ']')) = [] from by decide,
      List.append_nil]
  show (findBracket ('[' :: (body ++ [']']))).map
      (fun rest => '[' :: rest.takeWhile (fun c => !(c = ']')) ++ [']']) =
    Option.some ('[' :: body ++ [']'])
  rw [hfind]
  show Option.some ('[' :: (body ++ [']']).takeWhile (fun c => !(c = ']')) ++ [']']) =
    Option.some ('[' :: body ++ [']'])
  rw [htake]

theorem reprStrChars_length (x : String) : 1 ≤ (reprStrChars x).length := by
  unfold reprStrChars
  simp

theorem reprElems_length (xs : List String) : xs.length ≤ (reprElems xs).length := by
  induction xs with
  | nil => exact Nat.le_refl 0
  | cons x t ih =>
    cases t with
    | nil =>
      show 1 ≤ (reprStrChars x).length
      exact reprStrChars_length x
    | cons y t2 =>
      show (y :: t2).length + 1 ≤ (reprStrChars x ++ ',' :: ' ' :: reprElems (y :: t2)).length
      rw [List.length_append]
      have h1 := reprStrChars_length x
      have h2 : (',' :: ' ' :: reprElems (y :: t2)).length = (reprElems (y :: t2)).length + 2 := by
        simp
      omega

theorem parseElems_reprElems (xs : List String) :
    ∀ (tail : List Char) (fuel : Nat), xs.length + 1 ≤ fuel + 1 →
      parseElems (fuel + 1) (reprElems xs ++ ']' :: tail) = Option.some (xs, tail) := by
  induction xs with
  | nil =>
    intro tail fuel _
    show parseElems (fuel + 1) (']' :: tail) = Option.some ([], tail)
    exact parseElems_close fuel tail
  | cons x t ih =>
    intro tail fuel hfuel
    have hq := reprQuote_cases x.data
    cases t with
    | nil =>
      show parseElems (fuel + 1)
        ((reprQuote x.data :: escStr (reprQuote x.data) x.data ++ [reprQuote x.data])
          ++ ']' :: tail) = Option.some ([x], tail)
      rw [List.cons_append, List.cons_append, List.append_assoc]
      have h := parseElems_last fuel (reprQuote x.data)
        (escStr (reprQuote x.data) x.data ++ ([reprQuote x.data] ++ ']' :: tail))
        x.data tail hq
        (parseStrLit_escStr (reprQuote x.data) hq x.data (']' :: tail))
      rw [string_mk_data] at h
      exact h
    | cons y t2 =>
      show parseElems (fuel + 1)
        ((reprStrChars x ++ ',' :: ' ' :: reprElems (y :: t2)) ++ ']' :: tail) =
        Option.some (x :: y :: t2, tail)
      rw [List.append_assoc]
      show parseElems (fuel + 1)
        ((reprQuote x.data :: escStr (reprQuote x.data) x.data ++ [reprQuote x.data])
          ++ (',' :: ' ' :: (reprElems (y :: t2) ++ ']' :: tail))) =
        Option.some (x :: y :: t2, tail)
      rw [List.cons_append, List.cons_append, List.append_assoc]
      have h := parseElems_more fuel (reprQuote x.data)
        (escStr (reprQuote x.data) x.data ++
          ([reprQuote x.data] ++ ',' :: ' ' :: (reprElems (y :: t2) ++ ']' :: tail)))
        x.data (reprElems (y :: t2) ++ ']' :: tail) hq
        (parseStrLit_escStr (reprQuote x.data) hq x.data
          (',' :: ' ' :: (reprElems (y :: t2) ++ ']' :: tail)))
      rw [h]
      cases fuel with
      | zero =>
        exfalso
        have h2 : (x :: y :: t2).length = t2.length + 2 := by simp
        omega
      | succ f2 =>
        rw [parseElems_skip_space, ih tail f2 (by simp at hfuel ⊢; omega)]
        rw [string_mk_data]
        rfl

theorem literalEval_reprList (xs : List String) :
    literalEvalStrList (pyReprList xs) = Option.some xs := by
  unfold literalEvalStrList
  show (match skipWs ('[' :: reprElems xs ++ [']']) with
    | c :: rest =>
      if c = '[' then
        match parseElems (rest.length + 1) rest with
        | Option.some (xs2, rest2) =>
          if skipWs rest2 = [] then Option.some xs2 else Option.none
        | Option.none => Option.none
      else Option.none
    | [] => Option.none) = Option.some xs
  rw [show skipWs ('[' :: reprElems xs ++ [']']) = '[' :: (reprElems xs ++ [']'])
    from List.dropWhile_cons_of_neg (by decide)]
  show (if ('[' : Char) = '[' then
      match parseElems ((reprElems xs ++ [']']).length + 1) (reprElems xs ++ [']']) with
      | Option.some (xs2, rest2) =>
        if skipWs rest2 = [] then Option.some xs2 else Option.none
      | Option.none => Option.none
    else Option.none) = Option.some xs
  rw [if_pos rfl]
  have hlen : xs.length + 1 ≤ (reprElems xs ++ [']']).length + 1 := by
    have := reprElems_length xs
    rw [List.length_append]
    simp
    omega
  have hfuel : (reprElems xs ++ [']']).length + 1 =
      ((reprElems xs ++ [']']).length - 1) + 1 + 1 := by
    rw [List.length_append]
    simp
  rw [hfuel, parseElems_reprElems xs [] _ (by omega)]
  rfl

/-- C3 (amended): list-mode parsing of the stringified form of a list of
strings reproduces that exact list, provided no element contains a closing
square bracket - for such elements the non-greedy bracket regex cuts the
span at the first closing bracket inside the string, the literal parse of
the truncated span fails, and the caught error yields the empty plan
instead of the round trip. -/
theorem c3_round_trip (xs : List String) (h : ∀ s ∈ xs, ¬ ']' ∈ s.data) :
    process_llm1_response (pyReprList xs) = xs := by
  unfold process_llm1_response
  have hb := extractBracketSpan_wrap (reprElems xs) (not_mem_reprElems xs h)
  rw [show (pyReprList xs).data = '[' :: reprElems xs ++ [']'] from rfl, hb]
  show (match literalEvalStrList (String.mk ('[' :: reprElems xs ++ [']'])) with
    | Option.some xs2 => xs2
    | Option.none => []) = xs
  rw [show String.mk ('[' :: reprElems xs ++ [']']) = pyReprList xs from rfl,
    literalEval_reprList xs]

/-- Witness for C3 (amended) at the canonical two-step plan. -/
theorem c3_round_trip_witness :
    process_llm1_response (pyReprList ["Step one", "Step two"]) =
      ["Step one", "Step two"] :=
  c3_round_trip ["Step one", "Step two"] (by decide)

/-- C3 counterexample: the round trip fails for a list whose element
contains a closing square bracket - the stringified form of the
single-element list holding a]b parses back to the empty plan, not to the
original list. -/
theorem c3_bracket_counterexample :
    process_llm1_response (pyReprList ["a]b"]) = []
    ∧ ¬ process_llm1_response (pyReprList ["a]b"]) = ["a]b"] :=
  ⟨by decide, by decide⟩

end AgentSpec
